import Mathlib

/-!
# tcplife: connection lifecycle correlation (`csrc/tcplife.c`)

A shallow embedding of the BPF program `kprobe__tcp_set_state` together with
the two hash tables (`birth`, `whoami`) and the two perf output channels
(`ipv4_events`, `ipv6_events`) it works on.

Conventions of the embedding

* a `struct sock *` is a natural number (the address);
* `int state` is an `Int`; unsigned machine integers are `Nat`, reduced with
  an explicit `% 2 ^ w` where the C code narrows or can wrap;
* one invocation of the probe reads its environment (current task, clock,
  fields of the socket) exactly once per item; those readings are the fields
  of `Event`;
* the probe always returns `0`; the embedding returns the new tables and the
  records handed to `perf_submit` by this invocation.
-/

namespace Tcplife

/-! ## Constants of the kernel headers -/

/-- Modelled from the spec: the TCP state enumeration of the kernel header
`net/tcp_states.h` (pulled in by `linux/tcp.h`) is not part of the repository.
The values are those of the Linux kernel; section 4.2 of the specification
describes `TCP_FIN_WAIT1` as the first close related state. -/
def TCP_ESTABLISHED : Int := 1

/-- Modelled from the spec: kernel value of the state entered when the local
side initiates a connection (outbound open). -/
def TCP_SYN_SENT : Int := 2

/-- Modelled from the spec: kernel value of the state entered on an inbound
open. -/
def TCP_SYN_RECV : Int := 3

/-- Modelled from the spec: kernel value of the first close handshake state. -/
def TCP_FIN_WAIT1 : Int := 4

/-- Modelled from the spec: kernel value of the fully closed (terminal)
state. -/
def TCP_CLOSE : Int := 7

/-- Modelled from the spec: kernel value of the state in which the local side
finishes the close after the peer has closed. -/
def TCP_LAST_ACK : Int := 9

/-- Modelled from the spec: the address family constant `AF_INET` of
`linux/socket.h`, not part of the repository. -/
def AF_INET : Nat := 2

/-- Properties of the machine the probe runs on that the C macros used by the
probe depend on. -/
structure Host where
  little_endian : Bool
  deriving DecidableEq, Repr

/-- Modelled from the spec: the macro `ntohs` is not part of the repository;
it turns the 16 bit network order port into host order, which is a swap of
the two bytes on a little endian host and nothing on a big endian one. -/
def ntohs (host : Host) (x : Nat) : Nat :=
  if host.little_endian then (x % 256) * 256 + (x / 256) % 256 else x % 65536

/-! ## The hash tables -/

/-- Modelled from the spec: the macro `BPF_HASH` is not part of the
repository. A table is a bounded key value store keyed by the socket address;
`max_entries` is its fixed capacity. The functions below assume, but do not
require, that no key occurs twice in `entries`. -/
structure BpfHash (V : Type) where
  max_entries : Nat
  entries : List (Nat × V)
  deriving DecidableEq, Repr

namespace BpfHash

variable {V : Type}

/-- First value bound to `k` in an association list. -/
def find : List (Nat × V) → Nat → Option V
  | [], _ => none
  | (k', v) :: rest, k => if k' = k then some v else find rest k

/-- Overwrite the value bound to `k` in an association list. -/
def replace : List (Nat × V) → Nat → V → List (Nat × V)
  | [], _, _ => []
  | (k', v') :: rest, k, v =>
    if k' = k then (k, v) :: rest else (k', v') :: replace rest k v

/-- An empty table of the given capacity. -/
def empty (max_entries : Nat) : BpfHash V := ⟨max_entries, []⟩

/-- Operation `lookup` of the table: the value of the key, if present. -/
def lookup (t : BpfHash V) (k : Nat) : Option V := find t.entries k

/-- Operation `delete` of the table: idempotent, tolerant of a missing key. -/
def delete (t : BpfHash V) (k : Nat) : BpfHash V :=
  ⟨t.max_entries, t.entries.filter (fun p => decide (p.1 ≠ k))⟩

/-- Whether an `update` of key `k` takes effect: the key is present already
or the table has room for one more entry. -/
def has_room (t : BpfHash V) (k : Nat) : Bool :=
  (t.lookup k).isSome || decide (t.entries.length < t.max_entries)

/-- Modelled from the spec: operation `update` (upsert) of the table. An
existing key is overwritten; a new key is inserted when there is room and
silently dropped when the table is full (the drop-new policy of section 4.1;
the probe ignores the return value of `update`). -/
def update (t : BpfHash V) (k : Nat) (v : V) : BpfHash V :=
  if (t.lookup k).isSome then ⟨t.max_entries, replace t.entries k v⟩
  else if t.entries.length < t.max_entries then ⟨t.max_entries, t.entries ++ [(k, v)]⟩
  else t

end BpfHash

/-! ## Data structures of the probe -/

/-- Record `struct ipv4_data_t` pushed to `ipv4_events`. -/
structure ipv4_data_t where
  pid : Nat
  saddr : Nat
  daddr : Nat
  lport : Nat
  rport : Nat
  rx_b : Nat
  tx_b : Nat
  span_us : Nat
  comm : List Nat
  uid : Nat
  deriving DecidableEq, Repr

/-- Record `struct ipv6_data_t` pushed to `ipv6_events`. -/
structure ipv6_data_t where
  pid : Nat
  saddr : Nat
  daddr : Nat
  ports : Nat
  rx_b : Nat
  tx_b : Nat
  span_us : Nat
  comm : List Nat
  uid : Nat
  deriving DecidableEq, Repr

/-- Cached task context `struct id_t`, the value type of `whoami`. -/
structure id_t where
  pid : Nat
  comm : List Nat
  deriving DecidableEq, Repr

/-- The two shared tables `birth` and `whoami`. -/
structure Maps where
  birth : BpfHash Nat
  whoami : BpfHash id_t
  deriving DecidableEq, Repr

/-- The records one invocation hands to `perf_submit`, per output channel. -/
structure PerfOutput where
  ipv4_events : List ipv4_data_t
  ipv6_events : List ipv6_data_t
  deriving DecidableEq, Repr

/-- One invocation of the probe: its arguments `sk` and `state` and every
value it reads from its environment. `current_pid_tgid`, `current_uid_gid`
and `ktime_ns` are `u64`, `current_comm` is the `TASK_COMM_LEN` byte buffer
filled by `bpf_get_current_comm`, `skc_num`, `skc_dport` and `skc_family` are
`u16`, the IPv4 addresses `u32`, the IPv6 addresses 128 bit, the byte
counters `u64`. -/
structure Event where
  sk : Nat
  state : Int
  current_pid_tgid : Nat
  current_uid_gid : Nat
  current_comm : List Nat
  ktime_ns : Nat
  skc_num : Nat
  skc_dport : Nat
  skc_family : Nat
  skc_rcv_saddr : Nat
  skc_daddr : Nat
  skc_v6_rcv_saddr : Nat
  skc_v6_daddr : Nat
  bytes_received : Nat
  bytes_acked : Nat
  deriving DecidableEq, Repr

/-- Subtraction of two `u64` values, wrapping modulo `2 ^ 64`. -/
def u64_sub (a b : Nat) : Nat := (a + 2 ^ 64 - b % 2 ^ 64) % 2 ^ 64

/-- The expression `dport + ((0ULL + lport) << 32)` of the IPv6 branch, in
64 bit unsigned arithmetic. -/
def pack_ports (lport dport : Nat) : Nat :=
  (dport + ((0 + lport) <<< 32) % 2 ^ 64) % 2 ^ 64

/-- The process id of the current task: `bpf_get_current_pid_tgid() >> 32`
stored in a `u32`. -/
def current_pid (e : Event) : Nat := (e.current_pid_tgid >>> 32) % 2 ^ 32

/-- The user id of the current task: `bpf_get_current_uid_gid()` stored in a
`u32`. -/
def current_uid (e : Event) : Nat := e.current_uid_gid % 2 ^ 32

/-- The probe `kprobe__tcp_set_state(ctx, sk, state)`. -/
def kprobe__tcp_set_state (host : Host) (m : Maps) (e : Event) : Maps × PerfOutput :=
  let pid := current_pid e
  let uid := current_uid e
  let lport := e.skc_num
  let dport := ntohs host e.skc_dport
  -- capture birth time
  let birth1 :=
    if e.state < TCP_FIN_WAIT1 then m.birth.update e.sk e.ktime_ns else m.birth
  -- record PID & comm on SYN_SENT
  let whoami1 :=
    if e.state = TCP_SYN_SENT ∨ e.state = TCP_LAST_ACK then
      m.whoami.update e.sk ⟨pid, e.current_comm⟩
    else m.whoami
  if e.state ≠ TCP_CLOSE then (⟨birth1, whoami1⟩, ⟨[], []⟩)
  else
    -- calculate lifespan
    match birth1.lookup e.sk with
    | none => (⟨birth1, whoami1.delete e.sk⟩, ⟨[], []⟩)
    | some ts =>
      let delta_us := u64_sub e.ktime_ns ts / 1000
      let birth2 := birth1.delete e.sk
      -- fetch possible cached data
      let mep := whoami1.lookup e.sk
      let pid := match mep with
        | some me => me.pid
        | none => pid
      let rx_b := e.bytes_received
      let tx_b := e.bytes_acked
      let family := e.skc_family
      let comm := match mep with
        | none => e.current_comm
        | some me => me.comm
      let out : PerfOutput :=
        if family = AF_INET then
          ⟨[{ pid := pid, saddr := e.skc_rcv_saddr, daddr := e.skc_daddr,
              lport := lport, rport := dport, rx_b := rx_b, tx_b := tx_b,
              span_us := delta_us, comm := comm, uid := uid }], []⟩
        else
          ⟨[], [{ pid := pid, saddr := e.skc_v6_rcv_saddr, daddr := e.skc_v6_daddr,
                  ports := pack_ports lport dport, rx_b := rx_b, tx_b := tx_b,
                  span_us := delta_us, comm := comm, uid := uid }]⟩
      let whoami2 := match mep with
        | some _ => whoami1.delete e.sk
        | none => whoami1
      (⟨birth2, whoami2⟩, out)

/-- The record built by the reconciling branch of the probe, given the birth
stamp and the result of the `whoami` lookup. -/
def completion (host : Host) (e : Event) (ts : Nat) (mep : Option id_t) : PerfOutput :=
  let pid := match mep with
    | some me => me.pid
    | none => current_pid e
  let comm := match mep with
    | none => e.current_comm
    | some me => me.comm
  if e.skc_family = AF_INET then
    ⟨[{ pid := pid, saddr := e.skc_rcv_saddr, daddr := e.skc_daddr,
        lport := e.skc_num, rport := ntohs host e.skc_dport,
        rx_b := e.bytes_received, tx_b := e.bytes_acked,
        span_us := u64_sub e.ktime_ns ts / 1000, comm := comm, uid := current_uid e }], []⟩
  else
    ⟨[], [{ pid := pid, saddr := e.skc_v6_rcv_saddr, daddr := e.skc_v6_daddr,
            ports := pack_ports e.skc_num (ntohs host e.skc_dport),
            rx_b := e.bytes_received, tx_b := e.bytes_acked,
            span_us := u64_sub e.ktime_ns ts / 1000, comm := comm, uid := current_uid e }]⟩

/-! ## Event sequences -/

/-- The tables after a sequence of invocations, oldest first. -/
def run (host : Host) (m : Maps) (es : List Event) : Maps :=
  es.foldl (fun acc e => (kprobe__tcp_set_state host acc e).1) m

/-- Empty tables of the given capacities: the state at program load. -/
def Maps.init (birth_max whoami_max : Nat) : Maps :=
  ⟨BpfHash.empty birth_max, BpfHash.empty whoami_max⟩

/-- No `update` performed by this invocation hits a full table. -/
def event_fits (m : Maps) (e : Event) : Bool :=
  (!decide (e.state < TCP_FIN_WAIT1) || m.birth.has_room e.sk) &&
  (!decide (e.state = TCP_SYN_SENT ∨ e.state = TCP_LAST_ACK) || m.whoami.has_room e.sk)

/-- No `update` performed during the sequence hits a full table (no table
overflow). -/
def run_fits (host : Host) : Maps → List Event → Bool
  | _, [] => true
  | m, e :: es => event_fits m e && run_fits host (kprobe__tcp_set_state host m e).1 es

/-- Number of records an invocation hands to the two channels. -/
def PerfOutput.count (o : PerfOutput) : Nat :=
  o.ipv4_events.length + o.ipv6_events.length

/-- The lifespans of the records of an invocation, IPv4 channel first. -/
def PerfOutput.spans (o : PerfOutput) : List Nat :=
  o.ipv4_events.map (fun r => r.span_us) ++ o.ipv6_events.map (fun r => r.span_us)

/-- The task identities (process id, command name) of the records of an
invocation, IPv4 channel first. -/
def PerfOutput.idents (o : PerfOutput) : List (Nat × List Nat) :=
  o.ipv4_events.map (fun r => (r.pid, r.comm)) ++ o.ipv6_events.map (fun r => (r.pid, r.comm))

/-- Number of records emitted by the invocations on socket `h` during a
sequence. -/
def emitted_for (host : Host) (h : Nat) : Maps → List Event → Nat
  | _, [] => 0
  | m, e :: es =>
    (if e.sk = h then (kprobe__tcp_set_state host m e).2.count else 0) +
      emitted_for host h (kprobe__tcp_set_state host m e).1 es

/-- Number of early state invocations on socket `h` in a sequence. -/
def early_count (h : Nat) (es : List Event) : Nat :=
  (es.filter (fun e => decide (e.sk = h ∧ e.state < TCP_FIN_WAIT1))).length

/-- A sample invocation with all readings zero, used to build examples. -/
def Event.sample (sk : Nat) (state : Int) (ktime_ns : Nat) : Event :=
  { sk := sk, state := state, current_pid_tgid := 0, current_uid_gid := 0,
    current_comm := [], ktime_ns := ktime_ns, skc_num := 0, skc_dport := 0,
    skc_family := AF_INET, skc_rcv_saddr := 0, skc_daddr := 0,
    skc_v6_rcv_saddr := 0, skc_v6_daddr := 0, bytes_received := 0, bytes_acked := 0 }

/-- An identity table of capacity `n` filled with entries for the sockets
1 to `n`. -/
def full_table (n : Nat) : BpfHash id_t :=
  ⟨n, (List.range n).map (fun i => (i + 1, ⟨i, []⟩))⟩

/-- An identity table filled to a capacity of 10240 entries, for the sockets
1 to 10240. -/
def full_whoami : BpfHash id_t := full_table 10240

/-- The encoding of the port pair in the data model of the specification:
`remote | (local << 32)`. -/
def spec_ports (lport rport : Nat) : Nat := rport ||| (lport <<< 32)

/-! ## Facts about the tables -/

namespace BpfHash

variable {V : Type}

theorem find_filter_self (l : List (Nat × V)) (k : Nat) :
    find (l.filter (fun p => decide (p.1 ≠ k))) k = none := by
  induction l with
  | nil => rfl
  | cons p rest ih =>
    obtain ⟨k', v'⟩ := p
    by_cases hk : k' = k
    · simpa [List.filter, hk] using ih
    · simpa [List.filter, hk, find] using ih

theorem find_filter_ne (l : List (Nat × V)) (k k' : Nat) (hne : k' ≠ k) :
    find (l.filter (fun p => decide (p.1 ≠ k))) k' = find l k' := by
  induction l with
  | nil => rfl
  | cons p rest ih =>
    obtain ⟨k1, v1⟩ := p
    by_cases hk : k1 = k
    · have hk1 : ¬ k = k' := fun h => hne h.symm
      simpa [List.filter, hk, find, hk1] using ih
    · have ih2 : find (List.filter (fun p => !decide (p.1 = k)) rest) k' = find rest k' := by
        simpa using ih
      simp [List.filter, hk, find, ih2]

theorem find_replace_self (l : List (Nat × V)) (k : Nat) (v : V)
    (hk : (find l k).isSome = true) : find (replace l k v) k = some v := by
  induction l with
  | nil => simp [find] at hk
  | cons p rest ih =>
    obtain ⟨k1, v1⟩ := p
    by_cases h1 : k1 = k
    · simp [replace, find, h1]
    · simp [find, h1] at hk
      simp [replace, find, h1, ih hk]

theorem find_replace_ne (l : List (Nat × V)) (k k' : Nat) (v : V) (hne : k' ≠ k) :
    find (replace l k v) k' = find l k' := by
  induction l with
  | nil => rfl
  | cons p rest ih =>
    obtain ⟨k1, v1⟩ := p
    by_cases h1 : k1 = k
    · subst h1
      have h2 : ¬ k1 = k' := fun h => hne h.symm
      simp [replace, find, h2]
    · simp [replace, find, h1, ih]

theorem find_append_single (l : List (Nat × V)) (k k' : Nat) (v : V) :
    find (l ++ [(k, v)]) k' =
      match find l k' with
      | some x => some x
      | none => if k = k' then some v else none := by
  induction l with
  | nil => simp [find]
  | cons p rest ih =>
    obtain ⟨k1, v1⟩ := p
    by_cases h1 : k1 = k'
    · simp [find, h1]
    · simp [find, h1, ih]

@[simp] theorem lookup_empty (n k : Nat) : (empty n : BpfHash V).lookup k = none := rfl

@[simp] theorem lookup_delete_self (t : BpfHash V) (k : Nat) :
    (t.delete k).lookup k = none :=
  find_filter_self t.entries k

theorem lookup_delete_ne (t : BpfHash V) (k k' : Nat) (hne : k' ≠ k) :
    (t.delete k).lookup k' = t.lookup k' :=
  find_filter_ne t.entries k k' hne

theorem lookup_update_ne (t : BpfHash V) (k k' : Nat) (v : V) (hne : k' ≠ k) :
    (t.update k v).lookup k' = t.lookup k' := by
  unfold update
  split
  · exact find_replace_ne t.entries k k' v hne
  · split
    · show find (t.entries ++ [(k, v)]) k' = find t.entries k'
      rw [find_append_single]
      have : ¬ k = k' := fun h => hne h.symm
      cases find t.entries k' <;> simp [this]
    · rfl

theorem lookup_update_self (t : BpfHash V) (k : Nat) (v : V)
    (hroom : t.has_room k = true) : (t.update k v).lookup k = some v := by
  unfold update
  split
  · next h => exact find_replace_self t.entries k v h
  · next h =>
    have hlen : t.entries.length < t.max_entries := by
      simpa [has_room, h] using hroom
    rw [if_pos hlen]
    show find (t.entries ++ [(k, v)]) k = some v
    rw [find_append_single]
    have hnone : find t.entries k = none := by
      simpa [lookup] using h
    simp [hnone]

theorem update_full (t : BpfHash V) (k : Nat) (v : V)
    (hroom : t.has_room k = false) : t.update k v = t := by
  simp only [has_room, Bool.or_eq_false_iff, decide_eq_false_iff_not] at hroom
  unfold update
  rw [if_neg (by simp [hroom.1]), if_neg hroom.2]

theorem lookup_update_isSome (t : BpfHash V) (k k' : Nat) (v : V)
    (h : (t.lookup k').isSome = true) : ((t.update k v).lookup k').isSome = true := by
  by_cases hk : k' = k
  · subst hk
    rw [lookup_update_self t k' v (by simp [has_room, h])]
    rfl
  · rw [lookup_update_ne t k k' v hk]; exact h

end BpfHash

/-! ## Facts about one invocation -/

theorem close_not_early : ¬ TCP_CLOSE < TCP_FIN_WAIT1 := by decide

theorem close_ne_syn_sent : ¬ TCP_CLOSE = TCP_SYN_SENT := by decide

theorem close_ne_last_ack : ¬ TCP_CLOSE = TCP_LAST_ACK := by decide

theorem step_not_close (host : Host) (m : Maps) (e : Event) (h : e.state ≠ TCP_CLOSE) :
    kprobe__tcp_set_state host m e =
      (⟨if e.state < TCP_FIN_WAIT1 then m.birth.update e.sk e.ktime_ns else m.birth,
        if e.state = TCP_SYN_SENT ∨ e.state = TCP_LAST_ACK then
          m.whoami.update e.sk ⟨current_pid e, e.current_comm⟩
        else m.whoami⟩, ⟨[], []⟩) := by
  unfold kprobe__tcp_set_state
  simp only [ne_eq, h, not_false_eq_true, if_true]

theorem step_close_absent (host : Host) (m : Maps) (e : Event) (h : e.state = TCP_CLOSE)
    (hb : m.birth.lookup e.sk = none) :
    kprobe__tcp_set_state host m e = (⟨m.birth, m.whoami.delete e.sk⟩, ⟨[], []⟩) := by
  unfold kprobe__tcp_set_state
  simp [h, close_not_early, close_ne_syn_sent, close_ne_last_ack, hb]

theorem step_close_present (host : Host) (m : Maps) (e : Event) (ts : Nat)
    (h : e.state = TCP_CLOSE) (hb : m.birth.lookup e.sk = some ts) :
    kprobe__tcp_set_state host m e =
      (⟨m.birth.delete e.sk,
        match m.whoami.lookup e.sk with
        | some _ => m.whoami.delete e.sk
        | none => m.whoami⟩,
       completion host e ts (m.whoami.lookup e.sk)) := by
  unfold kprobe__tcp_set_state completion
  simp [h, close_not_early, close_ne_syn_sent, close_ne_last_ack, hb]

theorem completion_count (host : Host) (e : Event) (ts : Nat) (mep : Option id_t) :
    (completion host e ts mep).count = 1 := by
  unfold completion PerfOutput.count
  by_cases hf : e.skc_family = AF_INET <;> simp [hf]

theorem completion_spans (host : Host) (e : Event) (ts : Nat) (mep : Option id_t) :
    (completion host e ts mep).spans = [u64_sub e.ktime_ns ts / 1000] := by
  unfold completion PerfOutput.spans
  by_cases hf : e.skc_family = AF_INET <;> simp [hf]

theorem completion_idents_some (host : Host) (e : Event) (ts : Nat) (me : id_t) :
    (completion host e ts (some me)).idents = [(me.pid, me.comm)] := by
  unfold completion PerfOutput.idents
  by_cases hf : e.skc_family = AF_INET <;> simp [hf]

theorem completion_idents_none (host : Host) (e : Event) (ts : Nat) :
    (completion host e ts none).idents = [(current_pid e, e.current_comm)] := by
  unfold completion PerfOutput.idents
  by_cases hf : e.skc_family = AF_INET <;> simp [hf]

/-- An invocation never touches the birth entry of another socket. -/
theorem step_birth_other (host : Host) (m : Maps) (e : Event) (k : Nat) (hk : k ≠ e.sk) :
    (kprobe__tcp_set_state host m e).1.birth.lookup k = m.birth.lookup k := by
  by_cases hc : e.state = TCP_CLOSE
  · cases hb : m.birth.lookup e.sk with
    | none => rw [step_close_absent host m e hc hb]
    | some ts =>
      rw [step_close_present host m e ts hc hb]
      exact BpfHash.lookup_delete_ne _ _ _ hk
  · rw [step_not_close host m e hc]
    show (if e.state < TCP_FIN_WAIT1 then m.birth.update e.sk e.ktime_ns else m.birth).lookup k = _
    split
    · exact BpfHash.lookup_update_ne _ _ _ _ hk
    · rfl

/-- An invocation never touches the identity entry of another socket. -/
theorem step_whoami_other (host : Host) (m : Maps) (e : Event) (k : Nat) (hk : k ≠ e.sk) :
    (kprobe__tcp_set_state host m e).1.whoami.lookup k = m.whoami.lookup k := by
  by_cases hc : e.state = TCP_CLOSE
  · cases hb : m.birth.lookup e.sk with
    | none =>
      rw [step_close_absent host m e hc hb]
      exact BpfHash.lookup_delete_ne _ _ _ hk
    | some ts =>
      rw [step_close_present host m e ts hc hb]
      cases hw : m.whoami.lookup e.sk with
      | none => rfl
      | some me => exact BpfHash.lookup_delete_ne _ _ _ hk
  · rw [step_not_close host m e hc]
    show (if e.state = TCP_SYN_SENT ∨ e.state = TCP_LAST_ACK then
        m.whoami.update e.sk ⟨current_pid e, e.current_comm⟩ else m.whoami).lookup k = _
    split
    · exact BpfHash.lookup_update_ne _ _ _ _ hk
    · rfl

/-- After a `TCP_CLOSE` invocation the socket has no birth entry. -/
theorem step_close_birth (host : Host) (m : Maps) (e : Event) (h : e.state = TCP_CLOSE) :
    (kprobe__tcp_set_state host m e).1.birth.lookup e.sk = none := by
  cases hb : m.birth.lookup e.sk with
  | none => rw [step_close_absent host m e h hb]; exact hb
  | some ts =>
    rw [step_close_present host m e ts h hb]
    exact BpfHash.lookup_delete_self _ _

/-- After a `TCP_CLOSE` invocation the socket has no identity entry. -/
theorem step_close_whoami (host : Host) (m : Maps) (e : Event) (h : e.state = TCP_CLOSE) :
    (kprobe__tcp_set_state host m e).1.whoami.lookup e.sk = none := by
  cases hb : m.birth.lookup e.sk with
  | none =>
    rw [step_close_absent host m e h hb]
    exact BpfHash.lookup_delete_self _ _
  | some ts =>
    rw [step_close_present host m e ts h hb]
    cases hw : m.whoami.lookup e.sk with
    | none => exact hw
    | some me => exact BpfHash.lookup_delete_self _ _

/-- A socket without birth entry gets one only by an early state invocation
on that socket. -/
theorem step_birth_absent (host : Host) (m : Maps) (e : Event) (k : Nat)
    (hb : m.birth.lookup k = none) (he : e.sk = k → ¬ e.state < TCP_FIN_WAIT1) :
    (kprobe__tcp_set_state host m e).1.birth.lookup k = none := by
  by_cases hk : k = e.sk
  · subst hk
    by_cases hc : e.state = TCP_CLOSE
    · exact step_close_birth host m e hc
    · rw [step_not_close host m e hc]
      show (if e.state < TCP_FIN_WAIT1 then m.birth.update e.sk e.ktime_ns else m.birth).lookup _ = _
      rw [if_neg (he rfl)]; exact hb
  · rw [step_birth_other host m e k hk]; exact hb

/-- A birth entry survives every invocation that is neither an early state
nor a `TCP_CLOSE` invocation on its socket. -/
theorem step_birth_kept (host : Host) (m : Maps) (e : Event) (k ts : Nat)
    (hb : m.birth.lookup k = some ts)
    (he : e.sk = k → ¬ e.state < TCP_FIN_WAIT1 ∧ e.state ≠ TCP_CLOSE) :
    (kprobe__tcp_set_state host m e).1.birth.lookup k = some ts := by
  by_cases hk : k = e.sk
  · subst hk
    rw [step_not_close host m e (he rfl).2]
    show (if e.state < TCP_FIN_WAIT1 then m.birth.update e.sk e.ktime_ns else m.birth).lookup _ = _
    rw [if_neg (he rfl).1]; exact hb
  · rw [step_birth_other host m e k hk]; exact hb

/-- An early state invocation that does not overflow stamps the socket with
the current time. -/
theorem step_early_birth (host : Host) (m : Maps) (e : Event)
    (he : e.state < TCP_FIN_WAIT1) (hroom : m.birth.has_room e.sk = true) :
    (kprobe__tcp_set_state host m e).1.birth.lookup e.sk = some e.ktime_ns := by
  have hc : e.state ≠ TCP_CLOSE := by
    intro h; rw [h] at he; exact close_not_early he
  rw [step_not_close host m e hc]
  show (if e.state < TCP_FIN_WAIT1 then m.birth.update e.sk e.ktime_ns else m.birth).lookup _ = _
  rw [if_pos he]
  exact BpfHash.lookup_update_self _ _ _ hroom

/-! ## Facts about event sequences -/

theorem u64_sub_of_le (a b : Nat) (hba : b ≤ a) (ha : a < 2 ^ 64) : u64_sub a b = a - b := by
  unfold u64_sub
  have h64 : (2 : Nat) ^ 64 = 18446744073709551616 := by norm_num
  rw [h64] at ha ⊢
  omega

@[simp] theorem run_nil (host : Host) (m : Maps) : run host m [] = m := rfl

@[simp] theorem run_cons (host : Host) (m : Maps) (e : Event) (es : List Event) :
    run host m (e :: es) = run host (kprobe__tcp_set_state host m e).1 es := rfl

theorem run_append (host : Host) (m : Maps) (es fs : List Event) :
    run host m (es ++ fs) = run host (run host m es) fs := by
  unfold run; exact List.foldl_append _ _ _ _

theorem run_fits_append (host : Host) (m : Maps) (es fs : List Event) :
    run_fits host m (es ++ fs) = (run_fits host m es && run_fits host (run host m es) fs) := by
  induction es generalizing m with
  | nil => simp [run_fits]
  | cons e es ih => simp [run_fits, ih, Bool.and_assoc]

theorem run_birth_absent (host : Host) (m : Maps) (es : List Event) (k : Nat)
    (hb : m.birth.lookup k = none)
    (he : ∀ x ∈ es, x.sk = k → ¬ x.state < TCP_FIN_WAIT1) :
    (run host m es).birth.lookup k = none := by
  induction es generalizing m with
  | nil => exact hb
  | cons e es ih =>
    rw [run_cons]
    apply ih
    · exact step_birth_absent host m e k hb (he e (List.mem_cons_self _ _))
    · intro x hx; exact he x (List.mem_cons_of_mem _ hx)

theorem run_birth_kept (host : Host) (m : Maps) (es : List Event) (k ts : Nat)
    (hb : m.birth.lookup k = some ts)
    (he : ∀ x ∈ es, x.sk = k → ¬ x.state < TCP_FIN_WAIT1 ∧ x.state ≠ TCP_CLOSE) :
    (run host m es).birth.lookup k = some ts := by
  induction es generalizing m with
  | nil => exact hb
  | cons e es ih =>
    rw [run_cons]
    apply ih
    · exact step_birth_kept host m e k ts hb (he e (List.mem_cons_self _ _))
    · intro x hx; exact he x (List.mem_cons_of_mem _ hx)

/-- The birth entry of a socket after an early state invocation that fitted
and later invocations that neither stamp nor close the socket. -/
theorem run_birth_last_early (host : Host) (m : Maps) (pre mid : List Event) (early : Event)
    (h_early : early.state < TCP_FIN_WAIT1)
    (h_room : (run host m pre).birth.has_room early.sk = true)
    (h_mid : ∀ x ∈ mid, x.sk = early.sk → ¬ x.state < TCP_FIN_WAIT1 ∧ x.state ≠ TCP_CLOSE) :
    (run host m (pre ++ early :: mid)).birth.lookup early.sk = some early.ktime_ns := by
  rw [run_append, run_cons]
  exact run_birth_kept host _ mid early.sk early.ktime_ns
    (step_early_birth host _ early h_early h_room) h_mid

theorem BpfHash.find_eq_none_iff {V : Type} (l : List (Nat × V)) (k : Nat) :
    BpfHash.find l k = none ↔ ∀ p ∈ l, p.1 ≠ k := by
  induction l with
  | nil => simp [BpfHash.find]
  | cons p rest ih =>
    obtain ⟨k1, v1⟩ := p
    by_cases h1 : k1 = k
    · simp [BpfHash.find, h1]
    · simp [BpfHash.find, h1, ih]

/-- An identity capture invocation performs exactly the `whoami` update. -/
theorem step_whoami_capture (host : Host) (m : Maps) (e : Event)
    (h : e.state = TCP_SYN_SENT ∨ e.state = TCP_LAST_ACK) :
    (kprobe__tcp_set_state host m e).1.whoami =
      m.whoami.update e.sk ⟨current_pid e, e.current_comm⟩ := by
  have hc : e.state ≠ TCP_CLOSE := by
    rcases h with h | h <;> rw [h] <;> decide
  rw [step_not_close host m e hc]
  show (if e.state = TCP_SYN_SENT ∨ e.state = TCP_LAST_ACK then _ else _) = _
  rw [if_pos h]

/-- An invocation that is neither identity capture nor `TCP_CLOSE` leaves the
identity table alone. -/
theorem step_whoami_idle (host : Host) (m : Maps) (e : Event)
    (h : ¬ (e.state = TCP_SYN_SENT ∨ e.state = TCP_LAST_ACK)) (hc : e.state ≠ TCP_CLOSE) :
    (kprobe__tcp_set_state host m e).1.whoami = m.whoami := by
  rw [step_not_close host m e hc]
  show (if e.state = TCP_SYN_SENT ∨ e.state = TCP_LAST_ACK then _ else _) = _
  rw [if_neg h]

/-- Outside the identity capture states no socket gains an identity entry. -/
theorem step_whoami_no_new (host : Host) (m : Maps) (e : Event) (k : Nat)
    (h : ¬ (e.state = TCP_SYN_SENT ∨ e.state = TCP_LAST_ACK))
    (hk : m.whoami.lookup k = none) :
    (kprobe__tcp_set_state host m e).1.whoami.lookup k = none := by
  by_cases hc : e.state = TCP_CLOSE
  · by_cases hs : k = e.sk
    · subst hs; exact step_close_whoami host m e hc
    · rw [step_whoami_other host m e k hs]; exact hk
  · rw [step_whoami_idle host m e h hc]; exact hk

/-- Every identity entry present after a sequence was either present before
it and not rewritten, or written by the last identity capture invocation on
its socket. -/
theorem run_whoami_origin (host : Host) (m : Maps) (es : List Event) (k : Nat) (v : id_t)
    (h : (run host m es).whoami.lookup k = some v) :
    (m.whoami.lookup k = some v ∧
      ∀ x ∈ es, x.sk = k → ¬ (x.state = TCP_SYN_SENT ∨ x.state = TCP_LAST_ACK)) ∨
    (∃ a c b, es = a ++ c :: b ∧ c.sk = k ∧
      (c.state = TCP_SYN_SENT ∨ c.state = TCP_LAST_ACK) ∧
      (∀ x ∈ b, x.sk = k → ¬ (x.state = TCP_SYN_SENT ∨ x.state = TCP_LAST_ACK)) ∧
      v = ⟨current_pid c, c.current_comm⟩) := by
  induction es using List.reverseRecOn with
  | nil => exact Or.inl ⟨h, by simp⟩
  | append_singleton es e ih =>
    rw [run_append, run_cons, run_nil] at h
    have keep : (run host m es).whoami.lookup k = some v →
        (e.sk = k → ¬ (e.state = TCP_SYN_SENT ∨ e.state = TCP_LAST_ACK)) →
        (m.whoami.lookup k = some v ∧
          ∀ x ∈ es ++ [e], x.sk = k → ¬ (x.state = TCP_SYN_SENT ∨ x.state = TCP_LAST_ACK)) ∨
        (∃ a c b, es ++ [e] = a ++ c :: b ∧ c.sk = k ∧
          (c.state = TCP_SYN_SENT ∨ c.state = TCP_LAST_ACK) ∧
          (∀ x ∈ b, x.sk = k → ¬ (x.state = TCP_SYN_SENT ∨ x.state = TCP_LAST_ACK)) ∧
          v = ⟨current_pid c, c.current_comm⟩) := by
      intro h0 hne
      rcases ih h0 with ⟨h1, h2⟩ | ⟨a, c, b, h1, h2, h3, h4, h5⟩
      · left
        refine ⟨h1, ?_⟩
        intro x hx
        rcases List.mem_append.1 hx with hx | hx
        · exact h2 x hx
        · rw [List.mem_singleton.1 hx]; exact hne
      · right
        refine ⟨a, c, b ++ [e], ?_, h2, h3, ?_, h5⟩
        · rw [h1]; simp
        · intro x hx
          rcases List.mem_append.1 hx with hx | hx
          · exact h4 x hx
          · rw [List.mem_singleton.1 hx]; exact hne
    by_cases hs : k = e.sk
    · subst hs
      by_cases hcap : e.state = TCP_SYN_SENT ∨ e.state = TCP_LAST_ACK
      · rw [step_whoami_capture host _ e hcap] at h
        cases hroom : (run host m es).whoami.has_room e.sk with
        | true =>
          rw [BpfHash.lookup_update_self _ _ _ hroom] at h
          right
          exact ⟨es, e, [], rfl, rfl, hcap, by simp, (Option.some.inj h).symm⟩
        | false =>
          rw [BpfHash.update_full _ _ _ hroom] at h
          simp [BpfHash.has_room, h] at hroom
      · by_cases hc : e.state = TCP_CLOSE
        · rw [step_close_whoami host _ e hc] at h
          exact absurd h (by simp)
        · rw [step_whoami_idle host _ e hcap hc] at h
          exact keep h (fun _ => hcap)
    · rw [step_whoami_other host _ e k hs] at h
      exact keep h (fun he => absurd he.symm hs)

theorem early_count_cons (h : Nat) (e : Event) (es : List Event) :
    early_count h (e :: es) =
      (if e.sk = h ∧ e.state < TCP_FIN_WAIT1 then 1 else 0) + early_count h es := by
  unfold early_count
  by_cases hc : e.sk = h ∧ e.state < TCP_FIN_WAIT1
  · rw [List.filter_cons_of_pos (by simpa using hc), if_pos hc, List.length_cons]; omega
  · rw [List.filter_cons_of_neg (by simpa using hc), if_neg hc]; omega

/-- What one invocation on socket `h` emits, plus the birth entry it leaves
for `h`, is paid for by the birth entry it found or by being an early state
invocation. -/
theorem step_budget (host : Host) (h : Nat) (m : Maps) (e : Event) :
    (if e.sk = h then (kprobe__tcp_set_state host m e).2.count else 0) +
      (if ((kprobe__tcp_set_state host m e).1.birth.lookup h).isSome then 1 else 0) ≤
    (if e.sk = h ∧ e.state < TCP_FIN_WAIT1 then 1 else 0) +
      (if (m.birth.lookup h).isSome then 1 else 0) := by
  by_cases hs : e.sk = h
  · subst hs
    by_cases hc : e.state = TCP_CLOSE
    · have hne : ¬ e.state < TCP_FIN_WAIT1 := by rw [hc]; exact close_not_early
      rw [step_close_birth host m e hc]
      cases hb : m.birth.lookup e.sk with
      | none =>
        rw [step_close_absent host m e hc hb]
        simp [PerfOutput.count]
      | some ts =>
        rw [step_close_present host m e ts hc hb, completion_count]
        simp
    · rw [step_not_close host m e hc]
      by_cases he : e.state < TCP_FIN_WAIT1
      · simp only [PerfOutput.count, List.length_nil, he, and_self, if_true]
        split <;> omega
      · simp [PerfOutput.count, he]
  · rw [step_birth_other host m e h (fun x => hs x.symm)]
    simp [hs]

/-- Along any sequence, the records emitted for a socket are bounded by its
early state invocations, plus one if it had a birth entry at the start. -/
theorem emitted_for_le (host : Host) (h : Nat) (m : Maps) (es : List Event) :
    emitted_for host h m es ≤
      early_count h es + (if (m.birth.lookup h).isSome then 1 else 0) := by
  induction es generalizing m with
  | nil => simp [emitted_for]
  | cons e es ih =>
    have h1 := ih (kprobe__tcp_set_state host m e).1
    have h2 := step_budget host h m e
    rw [early_count_cons]
    simp only [emitted_for]
    omega

theorem full_table_lookup_zero (n : Nat) : (full_table n).lookup 0 = none := by
  refine (BpfHash.find_eq_none_iff _ _).2 ?_
  intro p hp
  unfold full_table at hp
  rw [List.mem_map] at hp
  obtain ⟨i, _, hi⟩ := hp
  rw [← hi]
  exact Nat.succ_ne_zero i

theorem full_table_no_room (n : Nat) : (full_table n).has_room 0 = false := by
  unfold BpfHash.has_room
  rw [full_table_lookup_zero]
  simp [full_table]

/-! ## The claims -/

/-- C1: starting from empty tables and without table overflow, when an early
state event on a socket is followed, with neither a later early state event
nor a `TCP_CLOSE` event on that socket in between, by a `TCP_CLOSE` event on
it, that `TCP_CLOSE` event emits exactly one record, whose lifespan is the
64 bit difference of the two timestamps divided by 1000; with a clock that
did not go backwards this is `(now - T) / 1000` for the timestamp `T` of the
last early state event. -/
theorem lifespan_from_last_early (host : Host) (birth_max whoami_max : Nat)
    (pre mid : List Event) (early close : Event)
    (h_early : early.state < TCP_FIN_WAIT1)
    (h_mid : ∀ x ∈ mid, x.sk = early.sk → ¬ x.state < TCP_FIN_WAIT1 ∧ x.state ≠ TCP_CLOSE)
    (h_sk : close.sk = early.sk) (h_close : close.state = TCP_CLOSE)
    (h_fits : run_fits host (Maps.init birth_max whoami_max)
      ((pre ++ early :: mid) ++ [close]) = true) :
    (kprobe__tcp_set_state host
        (run host (Maps.init birth_max whoami_max) (pre ++ early :: mid)) close).2.count = 1 ∧
    (kprobe__tcp_set_state host
        (run host (Maps.init birth_max whoami_max) (pre ++ early :: mid)) close).2.spans =
      [u64_sub close.ktime_ns early.ktime_ns / 1000] ∧
    (early.ktime_ns ≤ close.ktime_ns → close.ktime_ns < 2 ^ 64 →
      (kprobe__tcp_set_state host
        (run host (Maps.init birth_max whoami_max) (pre ++ early :: mid)) close).2.spans =
      [(close.ktime_ns - early.ktime_ns) / 1000]) := by
  have h_room : (run host (Maps.init birth_max whoami_max) pre).birth.has_room early.sk = true := by
    rw [List.append_assoc, run_fits_append] at h_fits
    have h2 := (Bool.and_eq_true _ _ ▸ h_fits).2
    simp only [List.cons_append, run_fits, event_fits, Bool.and_eq_true, Bool.or_eq_true,
      Bool.not_eq_true', decide_eq_false_iff_not] at h2
    rcases h2.1.1 with h | h
    · exact absurd h_early h
    · exact h
  have hb := run_birth_last_early host (Maps.init birth_max whoami_max) pre mid early
    h_early h_room h_mid
  rw [← h_sk] at hb
  rw [step_close_present host _ close early.ktime_ns h_close hb]
  refine ⟨completion_count _ _ _ _, completion_spans _ _ _ _, ?_⟩
  intro hle hlt
  rw [completion_spans, u64_sub_of_le _ _ hle hlt]

/-- Witness for C1: the scenario open (T1 = 1000), established (T2 = 3000),
close (now = 10500) gives one record with lifespan (10500 - 3000) / 1000. -/
theorem lifespan_from_last_early_witness :
    (kprobe__tcp_set_state ⟨true⟩
        (run ⟨true⟩ (Maps.init 10240 10240)
          ([Event.sample 1 TCP_SYN_SENT 1000] ++ Event.sample 1 TCP_ESTABLISHED 3000 :: []))
        (Event.sample 1 TCP_CLOSE 10500)).2.spans = [7] :=
  (lifespan_from_last_early ⟨true⟩ 10240 10240 [Event.sample 1 TCP_SYN_SENT 1000] []
    (Event.sample 1 TCP_ESTABLISHED 3000) (Event.sample 1 TCP_CLOSE 10500)
    (by decide) (by simp) rfl rfl (by decide)).2.2 (by decide) (by decide)

/-- C2: starting from empty tables, a `TCP_CLOSE` event on a socket that had
no early state event before it emits no record on either channel. -/
theorem close_without_early_emits_nothing (host : Host) (birth_max whoami_max : Nat)
    (pre : List Event) (close : Event)
    (h_pre : ∀ x ∈ pre, x.sk = close.sk → ¬ x.state < TCP_FIN_WAIT1)
    (h_close : close.state = TCP_CLOSE) :
    (kprobe__tcp_set_state host
        (run host (Maps.init birth_max whoami_max) pre) close).2.ipv4_events = [] ∧
    (kprobe__tcp_set_state host
        (run host (Maps.init birth_max whoami_max) pre) close).2.ipv6_events = [] := by
  have hb := run_birth_absent host (Maps.init birth_max whoami_max) pre close.sk rfl h_pre
  rw [step_close_absent host _ close h_close hb]
  exact ⟨rfl, rfl⟩

/-- Witness for C2: a socket seen only in `TCP_LAST_ACK` before it closes,
while another socket is established. -/
theorem close_without_early_emits_nothing_witness :
    (kprobe__tcp_set_state ⟨true⟩
        (run ⟨true⟩ (Maps.init 10240 10240)
          [Event.sample 1 TCP_LAST_ACK 10, Event.sample 2 TCP_ESTABLISHED 20])
        (Event.sample 1 TCP_CLOSE 30)).2.ipv4_events = [] ∧
    (kprobe__tcp_set_state ⟨true⟩
        (run ⟨true⟩ (Maps.init 10240 10240)
          [Event.sample 1 TCP_LAST_ACK 10, Event.sample 2 TCP_ESTABLISHED 20])
        (Event.sample 1 TCP_CLOSE 30)).2.ipv6_events = [] :=
  close_without_early_emits_nothing ⟨true⟩ 10240 10240
    [Event.sample 1 TCP_LAST_ACK 10, Event.sample 2 TCP_ESTABLISHED 20]
    (Event.sample 1 TCP_CLOSE 30) (by decide) rfl

/-- C3: a `TCP_CLOSE` event on a socket without birth entry emits no record,
leaves the birth table as it was, and its only effect on the identity table
is the deletion of the entry of that socket: afterwards the socket has no
identity entry and every other socket has the entry it had before. -/
theorem close_missed_create (host : Host) (m : Maps) (e : Event)
    (h_close : e.state = TCP_CLOSE) (h_birth : m.birth.lookup e.sk = none) :
    (kprobe__tcp_set_state host m e).2.ipv4_events = [] ∧
    (kprobe__tcp_set_state host m e).2.ipv6_events = [] ∧
    (kprobe__tcp_set_state host m e).1.birth = m.birth ∧
    (kprobe__tcp_set_state host m e).1.whoami = m.whoami.delete e.sk ∧
    (kprobe__tcp_set_state host m e).1.whoami.lookup e.sk = none ∧
    (∀ k, k ≠ e.sk →
      (kprobe__tcp_set_state host m e).1.whoami.lookup k = m.whoami.lookup k) ∧
    (kprobe__tcp_set_state host m e).1.whoami.entries.Sublist m.whoami.entries := by
  rw [step_close_absent host m e h_close h_birth]
  refine ⟨rfl, rfl, rfl, rfl, BpfHash.lookup_delete_self _ _, ?_, ?_⟩
  · intro k hk; exact BpfHash.lookup_delete_ne _ _ _ hk
  · exact List.filter_sublist _

/-- Witness for C3: a close on socket 1, which has an identity entry but no
birth entry, next to a socket 2 with both. -/
theorem close_missed_create_witness :
    (kprobe__tcp_set_state ⟨true⟩ ⟨⟨10240, [(2, 50)]⟩, ⟨10240, [(1, ⟨42, [115]⟩), (2, ⟨43, []⟩)]⟩⟩
        (Event.sample 1 TCP_CLOSE 30)).1.whoami = ⟨10240, [(2, ⟨43, []⟩)]⟩ :=
  (close_missed_create ⟨true⟩ ⟨⟨10240, [(2, 50)]⟩, ⟨10240, [(1, ⟨42, [115]⟩), (2, ⟨43, []⟩)]⟩⟩
    (Event.sample 1 TCP_CLOSE 30) rfl rfl).2.2.2.1

/-- C4: a `TCP_CLOSE` event on a socket with a birth entry and an identity
entry emits one record whose process id and command name are those of the
identity entry, whatever task processes the event; and when the tables were
reached from empty tables, that entry holds what the most recent
`TCP_SYN_SENT` or `TCP_LAST_ACK` event on the socket wrote. -/
theorem close_uses_cached_identity (host : Host) (m : Maps) (e : Event) (ts : Nat) (me : id_t)
    (h_close : e.state = TCP_CLOSE) (h_birth : m.birth.lookup e.sk = some ts)
    (h_id : m.whoami.lookup e.sk = some me) :
    (kprobe__tcp_set_state host m e).2.count = 1 ∧
    (kprobe__tcp_set_state host m e).2.idents = [(me.pid, me.comm)] ∧
    ∀ (birth_max whoami_max : Nat) (pre : List Event),
      m = run host (Maps.init birth_max whoami_max) pre →
      ∃ a c b, pre = a ++ c :: b ∧ c.sk = e.sk ∧
        (c.state = TCP_SYN_SENT ∨ c.state = TCP_LAST_ACK) ∧
        (∀ x ∈ b, x.sk = e.sk → ¬ (x.state = TCP_SYN_SENT ∨ x.state = TCP_LAST_ACK)) ∧
        me = ⟨current_pid c, c.current_comm⟩ := by
  rw [step_close_present host m e ts h_close h_birth, h_id]
  refine ⟨completion_count _ _ _ _, completion_idents_some _ _ _ _, ?_⟩
  intro birth_max whoami_max pre hm
  rw [hm] at h_id
  rcases run_whoami_origin host _ pre e.sk me h_id with ⟨h1, _⟩ | h
  · simp [Maps.init] at h1
  · exact h

/-- Witness for C4: outbound open by process 42 (command bytes 99, 100),
established, then a close processed by process 7: the record names 42. -/
theorem close_uses_cached_identity_witness :
    (kprobe__tcp_set_state ⟨true⟩
      (run ⟨true⟩ (Maps.init 10240 10240)
        [{ Event.sample 1 TCP_SYN_SENT 10 with
            current_pid_tgid := 42 * 2 ^ 32 + 5, current_comm := [99, 100] },
         Event.sample 1 TCP_ESTABLISHED 20])
      { Event.sample 1 TCP_CLOSE 5030 with
          current_pid_tgid := 7 * 2 ^ 32, current_comm := [0] }).2.idents = [(42, [99, 100])] :=
  (close_uses_cached_identity ⟨true⟩
      (run ⟨true⟩ (Maps.init 10240 10240)
        [{ Event.sample 1 TCP_SYN_SENT 10 with
            current_pid_tgid := 42 * 2 ^ 32 + 5, current_comm := [99, 100] },
         Event.sample 1 TCP_ESTABLISHED 20])
      { Event.sample 1 TCP_CLOSE 5030 with
          current_pid_tgid := 7 * 2 ^ 32, current_comm := [0] }
      20 ⟨42, [99, 100]⟩ rfl (by decide) (by decide)).2.1

/-- C5: a `TCP_CLOSE` event on a socket with a birth entry and no identity
entry emits exactly one record, on the IPv4 channel when the family is
`AF_INET` and on the IPv6 channel otherwise, whose process id and command
name are those of the task processing the event. -/
theorem close_falls_back_to_current (host : Host) (m : Maps) (e : Event) (ts : Nat)
    (h_close : e.state = TCP_CLOSE) (h_birth : m.birth.lookup e.sk = some ts)
    (h_id : m.whoami.lookup e.sk = none) :
    (e.skc_family = AF_INET →
      ∃ r, (kprobe__tcp_set_state host m e).2 = ⟨[r], []⟩ ∧
        r.pid = current_pid e ∧ r.comm = e.current_comm) ∧
    (e.skc_family ≠ AF_INET →
      ∃ r, (kprobe__tcp_set_state host m e).2 = ⟨[], [r]⟩ ∧
        r.pid = current_pid e ∧ r.comm = e.current_comm) := by
  rw [step_close_present host m e ts h_close h_birth, h_id]
  constructor
  · intro hf
    simp only [completion, hf, if_true]
    exact ⟨_, rfl, rfl, rfl⟩
  · intro hf
    simp only [completion, hf, if_false]
    exact ⟨_, rfl, rfl, rfl⟩

/-- Witness for C5: an IPv6 socket (family 10) stamped at 20 and closed by
process 7 without identity entry. -/
theorem close_falls_back_to_current_witness :
    ∃ r, (kprobe__tcp_set_state ⟨true⟩ ⟨⟨10240, [(1, 20)]⟩, ⟨10240, []⟩⟩
        { Event.sample 1 TCP_CLOSE 5030 with
          current_pid_tgid := 7 * 2 ^ 32, current_comm := [115], skc_family := 10 }).2
          = ⟨[], [r]⟩ ∧ r.pid = 7 ∧ r.comm = [115] :=
  (close_falls_back_to_current ⟨true⟩ ⟨⟨10240, [(1, 20)]⟩, ⟨10240, []⟩⟩
      { Event.sample 1 TCP_CLOSE 5030 with
        current_pid_tgid := 7 * 2 ^ 32, current_comm := [115], skc_family := 10 }
      20 rfl rfl rfl).2 (by decide)

/-- C6: for local port `L` and host order remote port `R`, both at most
65535, the ports field of the IPv6 record is `R + (L << 32)`; its low 32 bits
are `R` and its high 32 bits are `L`, so distinct port pairs are packed to
distinct values; and this is the value the probe stores in the record it
pushes to the IPv6 channel. -/
theorem ipv6_ports_roundtrip (L R : Nat) (hL : L ≤ 65535) (hR : R ≤ 65535) :
    pack_ports L R = R + (L <<< 32) ∧
    pack_ports L R % 2 ^ 32 = R ∧
    pack_ports L R >>> 32 = L ∧
    (∀ L' R', L' ≤ 65535 → R' ≤ 65535 → pack_ports L' R' = pack_ports L R → L' = L ∧ R' = R) ∧
    (∀ (host : Host) (m : Maps) (e : Event) (ts : Nat),
      e.state = TCP_CLOSE → m.birth.lookup e.sk = some ts → e.skc_family ≠ AF_INET →
      e.skc_num = L → ntohs host e.skc_dport = R →
      (kprobe__tcp_set_state host m e).2.ipv4_events = [] ∧
      (kprobe__tcp_set_state host m e).2.ipv6_events.map (fun r => r.ports) = [R + (L <<< 32)]) := by
  have hpack : ∀ a b : Nat, a ≤ 65535 → b ≤ 65535 → pack_ports a b = b + a * 4294967296 := by
    intro a b ha hb
    unfold pack_ports
    rw [Nat.shiftLeft_eq]
    norm_num
    omega
  have hshift : L <<< 32 = L * 4294967296 := by rw [Nat.shiftLeft_eq]
  refine ⟨?_, ?_, ?_, ?_, ?_⟩
  · rw [hpack L R hL hR, hshift]
  · rw [hpack L R hL hR]; norm_num; omega
  · rw [hpack L R hL hR, Nat.shiftRight_eq_div_pow]; omega
  · intro L' R' hL' hR' h
    rw [hpack L R hL hR, hpack L' R' hL' hR'] at h
    omega
  · intro host m e ts h_close h_birth h_fam h_l h_r
    rw [step_close_present host m e ts h_close h_birth]
    simp only [completion, h_fam, if_false, List.map, h_l, h_r]
    rw [hpack L R hL hR, hshift]
    simp

/-- Witness for C6: local port 443 and remote port 51000 (bytes swapped in
the socket: 51000 = 0xC738, stored as 0x38C7 = 14535). -/
theorem ipv6_ports_roundtrip_witness :
    pack_ports 443 51000 % 2 ^ 32 = 51000 ∧ pack_ports 443 51000 >>> 32 = 443 ∧
    (kprobe__tcp_set_state ⟨true⟩ ⟨⟨10240, [(1, 20)]⟩, ⟨10240, []⟩⟩
        { Event.sample 1 TCP_CLOSE 5030 with
          skc_family := 10, skc_num := 443, skc_dport := 14535 }).2.ipv6_events.map
        (fun r => r.ports) = [51000 + (443 <<< 32)] :=
  ⟨(ipv6_ports_roundtrip 443 51000 (by decide) (by decide)).2.1,
   (ipv6_ports_roundtrip 443 51000 (by decide) (by decide)).2.2.1,
   ((ipv6_ports_roundtrip 443 51000 (by decide) (by decide)).2.2.2.2 ⟨true⟩
      ⟨⟨10240, [(1, 20)]⟩, ⟨10240, []⟩⟩
      { Event.sample 1 TCP_CLOSE 5030 with
        skc_family := 10, skc_num := 443, skc_dport := 14535 }
      20 rfl rfl (by decide) rfl (by decide)).2⟩

/-- C7: after a `TCP_CLOSE` event on a socket, whatever the tables held and
whatever the address family, neither the birth table nor the identity table
has an entry keyed by that socket. -/
theorem close_clears_both (host : Host) (m : Maps) (e : Event) (h_close : e.state = TCP_CLOSE) :
    (kprobe__tcp_set_state host m e).1.birth.lookup e.sk = none ∧
    (kprobe__tcp_set_state host m e).1.whoami.lookup e.sk = none ∧
    (∀ p ∈ (kprobe__tcp_set_state host m e).1.birth.entries, p.1 ≠ e.sk) ∧
    (∀ p ∈ (kprobe__tcp_set_state host m e).1.whoami.entries, p.1 ≠ e.sk) :=
  ⟨step_close_birth host m e h_close, step_close_whoami host m e h_close,
   (BpfHash.find_eq_none_iff _ _).1 (step_close_birth host m e h_close),
   (BpfHash.find_eq_none_iff _ _).1 (step_close_whoami host m e h_close)⟩

/-- Witness for C7: socket 1 has both entries, socket 2 keeps its own. -/
theorem close_clears_both_witness :
    (kprobe__tcp_set_state ⟨true⟩
        ⟨⟨10240, [(1, 20), (2, 30)]⟩, ⟨10240, [(2, ⟨43, []⟩), (1, ⟨42, [115]⟩)]⟩⟩
        (Event.sample 1 TCP_CLOSE 5030)).1.birth.lookup 1 = none ∧
    (kprobe__tcp_set_state ⟨true⟩
        ⟨⟨10240, [(1, 20), (2, 30)]⟩, ⟨10240, [(2, ⟨43, []⟩), (1, ⟨42, [115]⟩)]⟩⟩
        (Event.sample 1 TCP_CLOSE 5030)).1.whoami.lookup 1 = none :=
  ⟨(close_clears_both ⟨true⟩
      ⟨⟨10240, [(1, 20), (2, 30)]⟩, ⟨10240, [(2, ⟨43, []⟩), (1, ⟨42, [115]⟩)]⟩⟩
      (Event.sample 1 TCP_CLOSE 5030) rfl).1,
   (close_clears_both ⟨true⟩
      ⟨⟨10240, [(1, 20), (2, 30)]⟩, ⟨10240, [(2, ⟨43, []⟩), (1, ⟨42, [115]⟩)]⟩⟩
      (Event.sample 1 TCP_CLOSE 5030) rfl).2.1⟩

/-- C8: output is at most one shot per birth stamp. From any table state,
when two `TCP_CLOSE` events on a socket are processed with no early state
event on that socket between them, the second emits nothing; and in every
event sequence from empty tables the number of records emitted for a socket
is at most the number of early state events seen for it (from other tables,
at most one more when the socket already had a birth entry). -/
theorem one_shot_per_birth_stamp (host : Host) :
    (∀ (m : Maps) (c1 c2 : Event) (mid : List Event),
      c1.state = TCP_CLOSE → c2.state = TCP_CLOSE → c2.sk = c1.sk →
      (∀ x ∈ mid, x.sk = c1.sk → ¬ x.state < TCP_FIN_WAIT1) →
      (kprobe__tcp_set_state host
        (run host (kprobe__tcp_set_state host m c1).1 mid) c2).2 = ⟨[], []⟩) ∧
    (∀ (birth_max whoami_max h : Nat) (es : List Event),
      emitted_for host h (Maps.init birth_max whoami_max) es ≤ early_count h es) ∧
    (∀ (m : Maps) (h : Nat) (es : List Event),
      emitted_for host h m es ≤
        early_count h es + (if (m.birth.lookup h).isSome then 1 else 0)) := by
  refine ⟨?_, ?_, ?_⟩
  · intro m c1 c2 mid h1 h2 hsk hmid
    have hb := run_birth_absent host (kprobe__tcp_set_state host m c1).1 mid c1.sk
      (step_close_birth host m c1 h1) hmid
    rw [← hsk] at hb
    rw [step_close_absent host _ c2 h2 hb]
  · intro birth_max whoami_max h es
    have := emitted_for_le host h (Maps.init birth_max whoami_max) es
    simpa [Maps.init] using this
  · intro m h es
    exact emitted_for_le host h m es

/-- Witness for C8: socket 1 is stamped, closed (one record), seen in
`TCP_LAST_ACK`, and closed again (nothing): one record for one early event. -/
theorem one_shot_per_birth_stamp_witness :
    (kprobe__tcp_set_state ⟨true⟩
        (run ⟨true⟩ (kprobe__tcp_set_state ⟨true⟩ ⟨⟨10240, [(1, 20)]⟩, ⟨10240, []⟩⟩
          (Event.sample 1 TCP_CLOSE 5030)).1 [Event.sample 1 TCP_LAST_ACK 6000])
        (Event.sample 1 TCP_CLOSE 7000)).2 = ⟨[], []⟩ ∧
    emitted_for ⟨true⟩ 1 (Maps.init 10240 10240)
        [Event.sample 1 TCP_ESTABLISHED 20, Event.sample 1 TCP_CLOSE 5030,
         Event.sample 1 TCP_LAST_ACK 6000, Event.sample 1 TCP_CLOSE 7000] ≤
      early_count 1
        [Event.sample 1 TCP_ESTABLISHED 20, Event.sample 1 TCP_CLOSE 5030,
         Event.sample 1 TCP_LAST_ACK 6000, Event.sample 1 TCP_CLOSE 7000] :=
  ⟨(one_shot_per_birth_stamp ⟨true⟩).1 ⟨⟨10240, [(1, 20)]⟩, ⟨10240, []⟩⟩
      (Event.sample 1 TCP_CLOSE 5030) (Event.sample 1 TCP_CLOSE 7000)
      [Event.sample 1 TCP_LAST_ACK 6000] rfl rfl rfl (by decide),
   (one_shot_per_birth_stamp ⟨true⟩).2.1 10240 10240 1
      [Event.sample 1 TCP_ESTABLISHED 20, Event.sample 1 TCP_CLOSE 5030,
       Event.sample 1 TCP_LAST_ACK 6000, Event.sample 1 TCP_CLOSE 7000]⟩

/-- Counterexample for C9: the state `TCP_SYN_SENT` passes both the early
test and the identity capture test, and the probe acts on both: one
invocation writes the birth entry and the identity entry. -/
theorem syn_sent_is_early_and_capture :
    (TCP_SYN_SENT < TCP_FIN_WAIT1 ∧ (TCP_SYN_SENT = TCP_SYN_SENT ∨ TCP_SYN_SENT = TCP_LAST_ACK)) ∧
    (kprobe__tcp_set_state ⟨true⟩ (Maps.init 10240 10240)
      { Event.sample 1 TCP_SYN_SENT 10 with current_pid_tgid := 42 * 2 ^ 32 }).1 =
      ⟨⟨10240, [(1, 10)]⟩, ⟨10240, [(1, ⟨42, []⟩)]⟩⟩ := by
  decide

/-- C9 as amended: for every state value the terminal test excludes the
early test and the identity capture test, while the early test and the
identity capture test hold together exactly at `TCP_SYN_SENT`
(`TCP_LAST_ACK` is identity capture only); on `TCP_SYN_SENT` the probe
performs both the birth update and the identity update. -/
theorem state_tests_overlap_only_at_syn_sent (state : Int) :
    ¬ (state < TCP_FIN_WAIT1 ∧ state = TCP_CLOSE) ∧
    ¬ ((state = TCP_SYN_SENT ∨ state = TCP_LAST_ACK) ∧ state = TCP_CLOSE) ∧
    ((state < TCP_FIN_WAIT1 ∧ (state = TCP_SYN_SENT ∨ state = TCP_LAST_ACK)) ↔
      state = TCP_SYN_SENT) ∧
    ¬ TCP_LAST_ACK < TCP_FIN_WAIT1 ∧
    (∀ (host : Host) (m : Maps) (e : Event), e.state = state → state = TCP_SYN_SENT →
      kprobe__tcp_set_state host m e =
        (⟨m.birth.update e.sk e.ktime_ns,
          m.whoami.update e.sk ⟨current_pid e, e.current_comm⟩⟩, ⟨[], []⟩)) := by
  refine ⟨?_, ?_, ?_, by decide, ?_⟩
  · rintro ⟨h1, h2⟩
    rw [h2] at h1; exact close_not_early h1
  · rintro ⟨h1 | h1, h2⟩
    · rw [h1] at h2; exact absurd h2 (by decide)
    · rw [h1] at h2; exact absurd h2 (by decide)
  · constructor
    · rintro ⟨h1, h2 | h2⟩
      · exact h2
      · rw [h2] at h1; exact absurd h1 (by decide)
    · intro h
      rw [h]; exact ⟨by decide, Or.inl rfl⟩
  · intro host m e he hs
    rw [hs] at he
    have hc : e.state ≠ TCP_CLOSE := by rw [he]; decide
    rw [step_not_close host m e hc, if_pos (by rw [he]; decide), if_pos (Or.inl he)]

/-- Witness for C9 as amended: an outbound open on empty tables. -/
theorem state_tests_overlap_only_at_syn_sent_witness :
    kprobe__tcp_set_state ⟨true⟩ (Maps.init 10240 10240) (Event.sample 1 TCP_SYN_SENT 10) =
      (⟨(BpfHash.empty 10240).update 1 10,
        (BpfHash.empty 10240).update 1 ⟨current_pid (Event.sample 1 TCP_SYN_SENT 10), []⟩⟩,
       ⟨[], []⟩) :=
  (state_tests_overlap_only_at_syn_sent TCP_SYN_SENT).2.2.2.2 ⟨true⟩ (Maps.init 10240 10240)
    (Event.sample 1 TCP_SYN_SENT 10) rfl rfl

/-- Counterexample for C10: with the identity table full (10240 entries, none
for socket 0), a `TCP_SYN_SENT` event on socket 0 by process 42 leaves the
table without an entry for socket 0. -/
theorem capture_dropped_when_full :
    (kprobe__tcp_set_state ⟨true⟩ ⟨BpfHash.empty 10240, full_whoami⟩
      { Event.sample 0 TCP_SYN_SENT 10 with current_pid_tgid := 42 * 2 ^ 32 }).1.whoami.lookup 0
      = none ∧
    (kprobe__tcp_set_state ⟨true⟩ ⟨BpfHash.empty 10240, full_whoami⟩
      { Event.sample 0 TCP_SYN_SENT 10 with current_pid_tgid := 42 * 2 ^ 32 }).1.whoami.lookup 0
      ≠ some ⟨42, []⟩ := by
  have hnone : full_whoami.lookup 0 = none := full_table_lookup_zero 10240
  have hroom : full_whoami.has_room 0 = false := full_table_no_room 10240
  have hstep : (kprobe__tcp_set_state ⟨true⟩ ⟨BpfHash.empty 10240, full_whoami⟩
      { Event.sample 0 TCP_SYN_SENT 10 with current_pid_tgid := 42 * 2 ^ 32 }).1.whoami.lookup 0
      = none := by
    rw [step_whoami_capture _ _ _ (Or.inl rfl)]
    show (full_whoami.update 0 _).lookup 0 = none
    rw [BpfHash.update_full _ _ _ hroom]
    exact hnone
  exact ⟨hstep, by rw [hstep]; simp⟩

/-- C10 as amended: on a `TCP_SYN_SENT` or `TCP_LAST_ACK` event, provided the
identity table already has an entry for the socket or is not full, the table
afterwards maps the socket to the current task's process id and command name,
overwriting any previous entry; when the table is full and has no entry for
the socket the insert is dropped and the table is unchanged; on an event in
any other state no socket without an identity entry before has one after. -/
theorem identity_written_only_on_capture (host : Host) (m : Maps) (e : Event) :
    ((e.state = TCP_SYN_SENT ∨ e.state = TCP_LAST_ACK) → m.whoami.has_room e.sk = true →
      (kprobe__tcp_set_state host m e).1.whoami.lookup e.sk =
        some ⟨current_pid e, e.current_comm⟩) ∧
    ((e.state = TCP_SYN_SENT ∨ e.state = TCP_LAST_ACK) → m.whoami.has_room e.sk = false →
      (kprobe__tcp_set_state host m e).1.whoami = m.whoami) ∧
    (¬ (e.state = TCP_SYN_SENT ∨ e.state = TCP_LAST_ACK) →
      ∀ k, m.whoami.lookup k = none →
        (kprobe__tcp_set_state host m e).1.whoami.lookup k = none) := by
  refine ⟨?_, ?_, ?_⟩
  · intro hcap hroom
    rw [step_whoami_capture host m e hcap]
    exact BpfHash.lookup_update_self _ _ _ hroom
  · intro hcap hroom
    rw [step_whoami_capture host m e hcap]
    exact BpfHash.update_full _ _ _ hroom
  · intro hcap k hk
    exact step_whoami_no_new host m e k hcap hk

/-- Witness for C10 as amended: a `TCP_LAST_ACK` event by process 7
overwrites the entry process 42 left for socket 1. -/
theorem identity_written_only_on_capture_witness :
    (kprobe__tcp_set_state ⟨true⟩ ⟨⟨10240, [(1, 20)]⟩, ⟨10240, [(1, ⟨42, [115]⟩)]⟩⟩
      { Event.sample 1 TCP_LAST_ACK 900 with
        current_pid_tgid := 7 * 2 ^ 32, current_comm := [99] }).1.whoami.lookup 1 =
      some ⟨7, [99]⟩ :=
  (identity_written_only_on_capture ⟨true⟩ ⟨⟨10240, [(1, 20)]⟩, ⟨10240, [(1, ⟨42, [115]⟩)]⟩⟩
      { Event.sample 1 TCP_LAST_ACK 900 with
        current_pid_tgid := 7 * 2 ^ 32, current_comm := [99] }).1 (Or.inr rfl) (by decide)

/-- An invocation that is neither early nor `TCP_CLOSE` leaves the birth
table alone. -/
theorem step_birth_idle (host : Host) (m : Maps) (e : Event)
    (h : ¬ e.state < TCP_FIN_WAIT1) (hc : e.state ≠ TCP_CLOSE) :
    (kprobe__tcp_set_state host m e).1.birth = m.birth := by
  rw [step_not_close host m e hc]
  show (if e.state < TCP_FIN_WAIT1 then _ else _) = _
  rw [if_neg h]

/-- C11: birth stamping overwrites on exactly the early states. An event with
state below `TCP_FIN_WAIT1` processed at time `t` whose update does not
overflow leaves the birth table mapping the socket to `t`, whatever it held;
an event with state at least `TCP_FIN_WAIT1` other than `TCP_CLOSE` leaves
the birth table unchanged; and a `TCP_CLOSE` event reads the entry as it was
before the event: the lifespan is computed from the old stamp, and without
an old stamp nothing is emitted. -/
theorem birth_stamp_overwrites_on_early (host : Host) (m : Maps) (e : Event) :
    (e.state < TCP_FIN_WAIT1 → m.birth.has_room e.sk = true →
      (kprobe__tcp_set_state host m e).1.birth.lookup e.sk = some e.ktime_ns) ∧
    (TCP_FIN_WAIT1 ≤ e.state → e.state ≠ TCP_CLOSE →
      (kprobe__tcp_set_state host m e).1.birth = m.birth) ∧
    (e.state = TCP_CLOSE →
      (∀ ts, m.birth.lookup e.sk = some ts →
        (kprobe__tcp_set_state host m e).2.spans = [u64_sub e.ktime_ns ts / 1000]) ∧
      (m.birth.lookup e.sk = none → (kprobe__tcp_set_state host m e).2 = ⟨[], []⟩)) := by
  refine ⟨?_, ?_, ?_⟩
  · intro he hroom
    exact step_early_birth host m e he hroom
  · intro hge hc
    exact step_birth_idle host m e (not_lt.2 hge) hc
  · intro hc
    constructor
    · intro ts hb
      rw [step_close_present host m e ts hc hb]
      exact completion_spans _ _ _ _
    · intro hb
      rw [step_close_absent host m e hc hb]

/-- Witness for C11: an established event at time 3000 overwrites the stamp
1000 of socket 1. -/
theorem birth_stamp_overwrites_on_early_witness :
    (kprobe__tcp_set_state ⟨true⟩ ⟨⟨10240, [(2, 5), (1, 1000)]⟩, ⟨10240, []⟩⟩
      (Event.sample 1 TCP_ESTABLISHED 3000)).1.birth.lookup 1 = some 3000 :=
  (birth_stamp_overwrites_on_early ⟨true⟩ ⟨⟨10240, [(2, 5), (1, 1000)]⟩, ⟨10240, []⟩⟩
    (Event.sample 1 TCP_ESTABLISHED 3000)).1 (by decide) (by decide)

/-- C12: an event whose state is not `TCP_CLOSE` emits no record on either
channel; an event whose state is neither early, nor `TCP_SYN_SENT`, nor
`TCP_LAST_ACK`, nor `TCP_CLOSE` leaves both tables and both channels exactly
as they were. -/
theorem only_close_emits (host : Host) (m : Maps) (e : Event) :
    (e.state ≠ TCP_CLOSE →
      (kprobe__tcp_set_state host m e).2.ipv4_events = [] ∧
      (kprobe__tcp_set_state host m e).2.ipv6_events = []) ∧
    (¬ e.state < TCP_FIN_WAIT1 → e.state ≠ TCP_SYN_SENT → e.state ≠ TCP_LAST_ACK →
      e.state ≠ TCP_CLOSE →
      kprobe__tcp_set_state host m e = (m, ⟨[], []⟩)) := by
  constructor
  · intro hc
    rw [step_not_close host m e hc]
    exact ⟨rfl, rfl⟩
  · intro he hs hl hc
    have hcap : ¬ (e.state = TCP_SYN_SENT ∨ e.state = TCP_LAST_ACK) := by
      rintro (h | h)
      · exact hs h
      · exact hl h
    rw [step_not_close host m e hc, if_neg he, if_neg hcap]

/-- Witness for C12: a `TCP_FIN_WAIT1` event (state 4) on a socket with both
entries changes nothing. -/
theorem only_close_emits_witness :
    kprobe__tcp_set_state ⟨true⟩ ⟨⟨10240, [(1, 1000)]⟩, ⟨10240, [(1, ⟨42, [115]⟩)]⟩⟩
      (Event.sample 1 TCP_FIN_WAIT1 3000) =
      (⟨⟨10240, [(1, 1000)]⟩, ⟨10240, [(1, ⟨42, [115]⟩)]⟩⟩, ⟨[], []⟩) :=
  (only_close_emits ⟨true⟩ ⟨⟨10240, [(1, 1000)]⟩, ⟨10240, [(1, ⟨42, [115]⟩)]⟩⟩
    (Event.sample 1 TCP_FIN_WAIT1 3000)).2 (by decide) (by decide) (by decide) (by decide)

/-- The host order port computed by `ntohs` is a 16 bit value. -/
theorem ntohs_le (host : Host) (x : Nat) : ntohs host x ≤ 65535 := by
  unfold ntohs
  split <;> omega

/-- For 16 bit ports the 64 bit expression of the IPv6 branch is the plain
sum `dport + lport * 2 ^ 32`. -/
theorem pack_ports_value (lport dport : Nat) (hl : lport ≤ 65535) (hd : dport ≤ 65535) :
    pack_ports lport dport = dport + lport * 4294967296 := by
  unfold pack_ports
  rw [Nat.shiftLeft_eq]
  norm_num
  omega

/-- C13: a `TCP_CLOSE` event on a socket with a birth entry pushes exactly
one record to exactly one channel. When the family is `AF_INET` it is the
IPv4 channel, with `lport` the local port of the socket and `rport` its host
order remote port; otherwise it is the IPv6 channel, whose ports field holds
the host order remote port in its low 32 bits and the (16 bit) local port in
its high 32 bits, `rport + (lport << 32)`. The IPv4 channel is used if and
only if the family is `AF_INET`, and both variants carry the same lifespan
and byte counters. -/
theorem close_selects_channel_by_family (host : Host) (m : Maps) (e : Event) (ts : Nat)
    (h_close : e.state = TCP_CLOSE) (h_birth : m.birth.lookup e.sk = some ts) :
    (kprobe__tcp_set_state host m e).2.count = 1 ∧
    ((kprobe__tcp_set_state host m e).2.ipv4_events ≠ [] ↔ e.skc_family = AF_INET) ∧
    ((kprobe__tcp_set_state host m e).2.ipv6_events ≠ [] ↔ e.skc_family ≠ AF_INET) ∧
    (e.skc_family = AF_INET →
      ∃ r, (kprobe__tcp_set_state host m e).2 = ⟨[r], []⟩ ∧
        r.lport = e.skc_num ∧ r.rport = ntohs host e.skc_dport ∧
        r.span_us = u64_sub e.ktime_ns ts / 1000 ∧
        r.rx_b = e.bytes_received ∧ r.tx_b = e.bytes_acked) ∧
    (e.skc_family ≠ AF_INET →
      ∃ r, (kprobe__tcp_set_state host m e).2 = ⟨[], [r]⟩ ∧
        r.span_us = u64_sub e.ktime_ns ts / 1000 ∧
        r.rx_b = e.bytes_received ∧ r.tx_b = e.bytes_acked ∧
        (e.skc_num ≤ 65535 →
          r.ports = ntohs host e.skc_dport + (e.skc_num <<< 32) ∧
          r.ports % 2 ^ 32 = ntohs host e.skc_dport ∧
          r.ports >>> 32 = e.skc_num)) := by
  rw [step_close_present host m e ts h_close h_birth]
  refine ⟨completion_count _ _ _ _, ?_, ?_, ?_, ?_⟩
  · by_cases hf : e.skc_family = AF_INET <;> simp [completion, hf]
  · by_cases hf : e.skc_family = AF_INET <;> simp [completion, hf]
  · intro hf
    simp only [completion, hf, if_true]
    exact ⟨_, rfl, rfl, rfl, rfl, rfl, rfl⟩
  · intro hf
    simp only [completion, hf, if_false]
    refine ⟨_, rfl, rfl, rfl, rfl, ?_⟩
    intro hl
    have hd := ntohs_le host e.skc_dport
    have hv := pack_ports_value e.skc_num (ntohs host e.skc_dport) hl hd
    have hshift : e.skc_num <<< 32 = e.skc_num * 4294967296 := by rw [Nat.shiftLeft_eq]
    show pack_ports e.skc_num (ntohs host e.skc_dport) = _ ∧
      pack_ports e.skc_num (ntohs host e.skc_dport) % 2 ^ 32 = _ ∧
      pack_ports e.skc_num (ntohs host e.skc_dport) >>> 32 = _
    rw [hv, hshift, Nat.shiftRight_eq_div_pow]
    refine ⟨rfl, ?_, ?_⟩
    · norm_num; omega
    · omega

/-- Witness for C13: a socket with local port 443 and remote port 51000
(stored byte swapped as 14535), stamped at 20 and closed at 5030, once as an
IPv4 socket and once as an IPv6 socket (family 10), whose ports field is
`51000 + 443 * 2 ^ 32 = 1902670563128`. -/
theorem close_selects_channel_by_family_witness :
    (∃ r, (kprobe__tcp_set_state ⟨true⟩ ⟨⟨10240, [(1, 20)]⟩, ⟨10240, []⟩⟩
        { Event.sample 1 TCP_CLOSE 5030 with
          skc_num := 443, skc_dport := 14535, bytes_received := 7, bytes_acked := 9 }).2
          = ⟨[r], []⟩ ∧
        r.lport = 443 ∧ r.rport = 51000 ∧ r.span_us = 5 ∧ r.rx_b = 7 ∧ r.tx_b = 9) ∧
    (∃ r, (kprobe__tcp_set_state ⟨true⟩ ⟨⟨10240, [(1, 20)]⟩, ⟨10240, []⟩⟩
        { Event.sample 1 TCP_CLOSE 5030 with
          skc_family := 10, skc_num := 443, skc_dport := 14535,
          bytes_received := 7, bytes_acked := 9 }).2
          = ⟨[], [r]⟩ ∧
        r.span_us = 5 ∧ r.rx_b = 7 ∧ r.tx_b = 9 ∧
        r.ports = 1902670563128 ∧ r.ports % 2 ^ 32 = 51000 ∧ r.ports >>> 32 = 443) := by
  constructor
  · exact (close_selects_channel_by_family ⟨true⟩ ⟨⟨10240, [(1, 20)]⟩, ⟨10240, []⟩⟩
      { Event.sample 1 TCP_CLOSE 5030 with
        skc_num := 443, skc_dport := 14535, bytes_received := 7, bytes_acked := 9 }
      20 rfl rfl).2.2.2.1 rfl
  · obtain ⟨r, h1, h2, h3, h4, h5⟩ :=
      (close_selects_channel_by_family ⟨true⟩ ⟨⟨10240, [(1, 20)]⟩, ⟨10240, []⟩⟩
        { Event.sample 1 TCP_CLOSE 5030 with
          skc_family := 10, skc_num := 443, skc_dport := 14535,
          bytes_received := 7, bytes_acked := 9 }
        20 rfl rfl).2.2.2.2 (by decide)
    exact ⟨r, h1, h2, h3, h4, h5 (by decide)⟩

/-- C15: for 16 bit ports the value the probe stores in the IPv6 ports
field, `R + (L << 32)` in 64 bit arithmetic, is the encoding
`R | (L << 32)` of the data model: the sum stays below `2 ^ 64` and no bit of
`R` meets a bit of `L << 32`. -/
theorem pack_ports_eq_spec_ports (L R : Nat) (hL : L < 65536) (hR : R < 65536) :
    pack_ports L R = spec_ports L R ∧
    R + (L <<< 32) < 2 ^ 64 ∧
    R &&& (L <<< 32) = 0 ∧
    (∀ (host : Host) (m : Maps) (e : Event) (ts : Nat),
      e.state = TCP_CLOSE → m.birth.lookup e.sk = some ts → e.skc_family ≠ AF_INET →
      e.skc_num = L → ntohs host e.skc_dport = R →
      (kprobe__tcp_set_state host m e).2.ipv6_events.map (fun r => r.ports) =
        [spec_ports L R]) := by
  have hshift : L <<< 32 = 2 ^ 32 * L := by rw [Nat.shiftLeft_eq, Nat.mul_comm]
  have hR32 : R < 2 ^ 32 := lt_of_lt_of_le hR (by norm_num)
  have hor : 2 ^ 32 * L + R = 2 ^ 32 * L ||| R := Nat.mul_add_lt_is_or hR32 L
  have hlt : R + 2 ^ 32 * L < 2 ^ 64 := by
    have h32 : (2 : Nat) ^ 32 = 4294967296 := by norm_num
    have h64 : (2 : Nat) ^ 64 = 18446744073709551616 := by norm_num
    rw [h32, h64]; omega
  have hpack : pack_ports L R = spec_ports L R := by
    unfold pack_ports spec_ports
    rw [Nat.zero_add, hshift, Nat.mod_eq_of_lt (lt_of_le_of_lt (Nat.le_add_left _ _) hlt),
      Nat.mod_eq_of_lt hlt, Nat.add_comm, hor, Nat.or_comm]
  refine ⟨hpack, ?_, ?_, ?_⟩
  rotate_left 2
  · intro host m e ts h_close h_birth h_fam h_l h_r
    rw [step_close_present host m e ts h_close h_birth]
    simp only [completion, h_fam, if_false, List.map, h_l, h_r, hpack]
  · rw [hshift]; exact hlt
  · apply Nat.eq_of_testBit_eq
    intro i
    rw [Nat.testBit_and, Nat.zero_testBit, Nat.testBit_shiftLeft]
    by_cases hi : i < 32
    · have hdec : decide (i ≥ 32) = false := decide_eq_false (not_le.2 hi)
      rw [hdec, Bool.false_and, Bool.and_false]
    · have hge : 2 ^ 32 ≤ 2 ^ i := Nat.pow_le_pow_right (by norm_num) (not_lt.1 hi)
      rw [Nat.testBit_lt_two_pow (lt_of_lt_of_le hR32 hge), Bool.false_and]

/-- Witness for C15: local port 443 and remote port 51000. -/
theorem pack_ports_eq_spec_ports_witness :
    pack_ports 443 51000 = spec_ports 443 51000 :=
  (pack_ports_eq_spec_ports 443 51000 (by decide) (by decide)).1

theorem u64_sub_cast (a b : Nat) :
    ((u64_sub a b : Nat) : Int) = ((a : Int) - (b : Int)) % 2 ^ 64 := by
  unfold u64_sub
  have h64 : (2 : Nat) ^ 64 = 18446744073709551616 := by norm_num
  have h64i : (2 : Int) ^ 64 = 18446744073709551616 := by norm_num
  rw [h64, h64i]
  omega

theorem u64_sub_of_lt (a b : Nat) (hab : a < b) (hb : b < 2 ^ 64) :
    u64_sub a b = a + 2 ^ 64 - b := by
  unfold u64_sub
  have h64 : (2 : Nat) ^ 64 = 18446744073709551616 := by norm_num
  rw [h64] at hb ⊢
  omega

/-- C16: the lifespan of the record emitted by a `TCP_CLOSE` event is the
difference of the current time and the birth stamp modulo `2 ^ 64`, divided
by 1000 with truncation. When the current time is not before the stamp the
lifespan times 1000 is at most the difference and misses it by less than
1000; when it is before the stamp the subtraction wraps to the positive
value `now + 2 ^ 64 - birth`. -/
theorem lifespan_truncates_and_wraps (host : Host) (m : Maps) (e : Event) (ts : Nat)
    (h_close : e.state = TCP_CLOSE) (h_birth : m.birth.lookup e.sk = some ts)
    (h_now : e.ktime_ns < 2 ^ 64) (h_ts : ts < 2 ^ 64) :
    (kprobe__tcp_set_state host m e).2.spans = [u64_sub e.ktime_ns ts / 1000] ∧
    ((u64_sub e.ktime_ns ts : Nat) : Int) = ((e.ktime_ns : Int) - (ts : Int)) % 2 ^ 64 ∧
    (ts ≤ e.ktime_ns →
      u64_sub e.ktime_ns ts = e.ktime_ns - ts ∧
      (u64_sub e.ktime_ns ts / 1000) * 1000 ≤ e.ktime_ns - ts ∧
      e.ktime_ns - ts < (u64_sub e.ktime_ns ts / 1000) * 1000 + 1000) ∧
    (e.ktime_ns < ts →
      u64_sub e.ktime_ns ts = e.ktime_ns + 2 ^ 64 - ts ∧ 0 < u64_sub e.ktime_ns ts) := by
  rw [step_close_present host m e ts h_close h_birth]
  refine ⟨completion_spans _ _ _ _, u64_sub_cast _ _, ?_, ?_⟩
  · intro hle
    rw [u64_sub_of_le _ _ hle h_now]
    refine ⟨rfl, ?_, ?_⟩ <;> omega
  · intro hlt
    rw [u64_sub_of_lt _ _ hlt h_ts]
    have h64 : (2 : Nat) ^ 64 = 18446744073709551616 := by norm_num
    rw [h64] at h_ts ⊢
    exact ⟨rfl, by omega⟩

/-- Witness for C16: a stamp of 3000 and a close at 10999 give 7
microseconds, one short nanosecond below 8. -/
theorem lifespan_truncates_and_wraps_witness :
    (kprobe__tcp_set_state ⟨true⟩ ⟨⟨10240, [(1, 3000)]⟩, ⟨10240, []⟩⟩
      (Event.sample 1 TCP_CLOSE 10999)).2.spans = [7] :=
  (lifespan_truncates_and_wraps ⟨true⟩ ⟨⟨10240, [(1, 3000)]⟩, ⟨10240, []⟩⟩
    (Event.sample 1 TCP_CLOSE 10999) 3000 rfl rfl (by decide) (by decide)).1

/-- C17: the uid of every emitted record is the uid of the task that
processes the `TCP_CLOSE` event, also when the process id and the command
name come from a cached identity entry; an identity entry consists of a
process id and a command name only. -/
theorem uid_is_current_context (host : Host) (m : Maps) (e : Event) :
    (∀ r ∈ (kprobe__tcp_set_state host m e).2.ipv4_events, r.uid = current_uid e) ∧
    (∀ r ∈ (kprobe__tcp_set_state host m e).2.ipv6_events, r.uid = current_uid e) ∧
    (∀ (ts : Nat) (me : id_t), e.state = TCP_CLOSE → m.birth.lookup e.sk = some ts →
      m.whoami.lookup e.sk = some me →
      (kprobe__tcp_set_state host m e).2.idents = [(me.pid, me.comm)] ∧
      (kprobe__tcp_set_state host m e).2.ipv4_events.map (fun r => r.uid) ++
        (kprobe__tcp_set_state host m e).2.ipv6_events.map (fun r => r.uid) =
        [current_uid e]) ∧
    (∀ a b : id_t, a.pid = b.pid → a.comm = b.comm → a = b) := by
  have hcomp : ∀ (ts : Nat) (mep : Option id_t),
      (∀ r ∈ (completion host e ts mep).ipv4_events, r.uid = current_uid e) ∧
      (∀ r ∈ (completion host e ts mep).ipv6_events, r.uid = current_uid e) ∧
      (completion host e ts mep).ipv4_events.map (fun r => r.uid) ++
        (completion host e ts mep).ipv6_events.map (fun r => r.uid) = [current_uid e] := by
    intro ts mep
    unfold completion
    by_cases hf : e.skc_family = AF_INET <;> simp [hf]
  refine ⟨?_, ?_, ?_, ?_⟩
  · by_cases hc : e.state = TCP_CLOSE
    · cases hb : m.birth.lookup e.sk with
      | none => rw [step_close_absent host m e hc hb]; simp
      | some ts =>
        rw [step_close_present host m e ts hc hb]
        exact (hcomp ts _).1
    · rw [step_not_close host m e hc]; simp
  · by_cases hc : e.state = TCP_CLOSE
    · cases hb : m.birth.lookup e.sk with
      | none => rw [step_close_absent host m e hc hb]; simp
      | some ts =>
        rw [step_close_present host m e ts hc hb]
        exact (hcomp ts _).2.1
    · rw [step_not_close host m e hc]; simp
  · intro ts me hc hb hw
    rw [step_close_present host m e ts hc hb, hw]
    exact ⟨completion_idents_some _ _ _ _, (hcomp ts _).2.2⟩
  · intro a b hp hcm
    cases a; cases b
    simp only at hp hcm
    rw [hp, hcm]

/-- Witness for C17: the identity of socket 1 was cached by process 42; the
close is processed by process 7 running as uid 1000 (gid 5). -/
theorem uid_is_current_context_witness :
    (kprobe__tcp_set_state ⟨true⟩ ⟨⟨10240, [(1, 20)]⟩, ⟨10240, [(1, ⟨42, [115]⟩)]⟩⟩
      { Event.sample 1 TCP_CLOSE 5030 with
        current_pid_tgid := 7 * 2 ^ 32, current_uid_gid := 5 * 2 ^ 32 + 1000 }).2.idents =
      [(42, [115])] ∧
    (kprobe__tcp_set_state ⟨true⟩ ⟨⟨10240, [(1, 20)]⟩, ⟨10240, [(1, ⟨42, [115]⟩)]⟩⟩
      { Event.sample 1 TCP_CLOSE 5030 with
        current_pid_tgid := 7 * 2 ^ 32, current_uid_gid := 5 * 2 ^ 32 + 1000 }).2.ipv4_events.map
        (fun r => r.uid) ++
    (kprobe__tcp_set_state ⟨true⟩ ⟨⟨10240, [(1, 20)]⟩, ⟨10240, [(1, ⟨42, [115]⟩)]⟩⟩
      { Event.sample 1 TCP_CLOSE 5030 with
        current_pid_tgid := 7 * 2 ^ 32, current_uid_gid := 5 * 2 ^ 32 + 1000 }).2.ipv6_events.map
        (fun r => r.uid) = [1000] :=
  (uid_is_current_context ⟨true⟩ ⟨⟨10240, [(1, 20)]⟩, ⟨10240, [(1, ⟨42, [115]⟩)]⟩⟩
      { Event.sample 1 TCP_CLOSE 5030 with
        current_pid_tgid := 7 * 2 ^ 32, current_uid_gid := 5 * 2 ^ 32 + 1000 }).2.2.1
    20 ⟨42, [115]⟩ rfl rfl rfl

/-- C18: an event on one socket leaves the birth entry and the identity
entry of every other socket exactly as they were, whatever its state. -/
theorem other_sockets_untouched (host : Host) (m : Maps) (e : Event) (k : Nat)
    (hk : k ≠ e.sk) :
    (kprobe__tcp_set_state host m e).1.birth.lookup k = m.birth.lookup k ∧
    (kprobe__tcp_set_state host m e).1.whoami.lookup k = m.whoami.lookup k :=
  ⟨step_birth_other host m e k hk, step_whoami_other host m e k hk⟩

/-- Witness for C18: a close on socket 1 next to socket 2. -/
theorem other_sockets_untouched_witness :
    (kprobe__tcp_set_state ⟨true⟩
        ⟨⟨10240, [(1, 20), (2, 30)]⟩, ⟨10240, [(2, ⟨43, []⟩), (1, ⟨42, [115]⟩)]⟩⟩
        (Event.sample 1 TCP_CLOSE 5030)).1.birth.lookup 2 = some 30 ∧
    (kprobe__tcp_set_state ⟨true⟩
        ⟨⟨10240, [(1, 20), (2, 30)]⟩, ⟨10240, [(2, ⟨43, []⟩), (1, ⟨42, [115]⟩)]⟩⟩
        (Event.sample 1 TCP_CLOSE 5030)).1.whoami.lookup 2 = some ⟨43, []⟩ :=
  other_sockets_untouched ⟨true⟩
    ⟨⟨10240, [(1, 20), (2, 30)]⟩, ⟨10240, [(2, ⟨43, []⟩), (1, ⟨42, [115]⟩)]⟩⟩
    (Event.sample 1 TCP_CLOSE 5030) 2 (by decide)

theorem event_fits_birth (m : Maps) (e : Event) (hf : event_fits m e = true)
    (he : e.state < TCP_FIN_WAIT1) : m.birth.has_room e.sk = true := by
  simp only [event_fits, Bool.and_eq_true, Bool.or_eq_true, Bool.not_eq_true',
    decide_eq_false_iff_not] at hf
  rcases hf.1 with h | h
  · exact absurd he h
  · exact h

theorem event_fits_whoami (m : Maps) (e : Event) (hf : event_fits m e = true)
    (he : e.state = TCP_SYN_SENT ∨ e.state = TCP_LAST_ACK) :
    m.whoami.has_room e.sk = true := by
  simp only [event_fits, Bool.and_eq_true, Bool.or_eq_true, Bool.not_eq_true',
    decide_eq_false_iff_not] at hf
  rcases hf.2 with h | h
  · exact absurd he h
  · exact h

/-- Without overflow, the birth entry an invocation leaves for its own socket
depends on the tables only through the entry it found for that socket. -/
theorem step_own_birth_congr (host : Host) (m m' : Maps) (e : Event)
    (hb : m.birth.lookup e.sk = m'.birth.lookup e.sk)
    (hf : event_fits m e = true) (hf' : event_fits m' e = true) :
    (kprobe__tcp_set_state host m e).1.birth.lookup e.sk =
      (kprobe__tcp_set_state host m' e).1.birth.lookup e.sk := by
  by_cases hc : e.state = TCP_CLOSE
  · rw [step_close_birth host m e hc, step_close_birth host m' e hc]
  · by_cases he : e.state < TCP_FIN_WAIT1
    · rw [step_early_birth host m e he (event_fits_birth m e hf he),
        step_early_birth host m' e he (event_fits_birth m' e hf' he)]
    · rw [step_birth_idle host m e he hc, step_birth_idle host m' e he hc]
      exact hb

/-- Without overflow, the identity entry an invocation leaves for its own
socket depends on the tables only through the entry it found for it. -/
theorem step_own_whoami_congr (host : Host) (m m' : Maps) (e : Event)
    (hw : m.whoami.lookup e.sk = m'.whoami.lookup e.sk)
    (hf : event_fits m e = true) (hf' : event_fits m' e = true) :
    (kprobe__tcp_set_state host m e).1.whoami.lookup e.sk =
      (kprobe__tcp_set_state host m' e).1.whoami.lookup e.sk := by
  by_cases hc : e.state = TCP_CLOSE
  · rw [step_close_whoami host m e hc, step_close_whoami host m' e hc]
  · by_cases he : e.state = TCP_SYN_SENT ∨ e.state = TCP_LAST_ACK
    · rw [step_whoami_capture host m e he, step_whoami_capture host m' e he,
        BpfHash.lookup_update_self _ _ _ (event_fits_whoami m e hf he),
        BpfHash.lookup_update_self _ _ _ (event_fits_whoami m' e hf' he)]
    · rw [step_whoami_idle host m e he hc, step_whoami_idle host m' e he hc]
      exact hw

/-- The records of an invocation depend on the tables only through the two
entries of its own socket. -/
theorem step_out_congr (host : Host) (m m' : Maps) (e : Event)
    (hb : m.birth.lookup e.sk = m'.birth.lookup e.sk)
    (hw : m.whoami.lookup e.sk = m'.whoami.lookup e.sk) :
    (kprobe__tcp_set_state host m e).2 = (kprobe__tcp_set_state host m' e).2 := by
  by_cases hc : e.state = TCP_CLOSE
  · cases hb0 : m.birth.lookup e.sk with
    | none =>
      rw [step_close_absent host m e hc hb0, step_close_absent host m' e hc (hb ▸ hb0)]
    | some ts =>
      rw [step_close_present host m e ts hc hb0,
        step_close_present host m' e ts hc (hb ▸ hb0), hw]
  · rw [step_not_close host m e hc, step_not_close host m' e hc]

/-- C19: events on distinct sockets commute. When neither order of
processing overflows a table, processing the event on the first socket and
then the one on the second leaves every socket with the same birth entry and
the same identity entry as the opposite order, and each event emits the same
records in both orders. -/
theorem distinct_sockets_commute (host : Host) (m : Maps) (e1 e2 : Event)
    (hne : e1.sk ≠ e2.sk)
    (hf12 : run_fits host m [e1, e2] = true) (hf21 : run_fits host m [e2, e1] = true) :
    (∀ k, (run host m [e1, e2]).birth.lookup k = (run host m [e2, e1]).birth.lookup k) ∧
    (∀ k, (run host m [e1, e2]).whoami.lookup k = (run host m [e2, e1]).whoami.lookup k) ∧
    (kprobe__tcp_set_state host m e1).2 =
      (kprobe__tcp_set_state host (kprobe__tcp_set_state host m e2).1 e1).2 ∧
    (kprobe__tcp_set_state host (kprobe__tcp_set_state host m e1).1 e2).2 =
      (kprobe__tcp_set_state host m e2).2 := by
  simp only [run_fits, Bool.and_eq_true, and_true] at hf12 hf21
  obtain ⟨f1, f12⟩ := hf12
  obtain ⟨f2, f21⟩ := hf21
  have hne' : e2.sk ≠ e1.sk := fun h => hne h.symm
  simp only [run_cons, run_nil]
  refine ⟨?_, ?_, ?_, ?_⟩
  · intro k
    by_cases h1 : k = e1.sk
    · subst h1
      rw [step_birth_other host _ e2 _ hne]
      exact step_own_birth_congr host _ _ e1 (step_birth_other host m e2 _ hne).symm f1 f21
    · by_cases h2 : k = e2.sk
      · subst h2
        rw [step_birth_other host _ e1 _ hne']
        exact step_own_birth_congr host _ _ e2 (step_birth_other host m e1 _ hne') f12 f2
      · rw [step_birth_other host _ e2 k h2, step_birth_other host _ e1 k h1,
          step_birth_other host _ e1 k h1, step_birth_other host _ e2 k h2]
  · intro k
    by_cases h1 : k = e1.sk
    · subst h1
      rw [step_whoami_other host _ e2 _ hne]
      exact step_own_whoami_congr host _ _ e1 (step_whoami_other host m e2 _ hne).symm f1 f21
    · by_cases h2 : k = e2.sk
      · subst h2
        rw [step_whoami_other host _ e1 _ hne']
        exact step_own_whoami_congr host _ _ e2 (step_whoami_other host m e1 _ hne') f12 f2
      · rw [step_whoami_other host _ e2 k h2, step_whoami_other host _ e1 k h1,
          step_whoami_other host _ e1 k h1, step_whoami_other host _ e2 k h2]
  · exact step_out_congr host _ _ e1 (step_birth_other host m e2 _ hne).symm
      (step_whoami_other host m e2 _ hne).symm
  · exact step_out_congr host _ _ e2 (step_birth_other host m e1 _ hne')
      (step_whoami_other host m e1 _ hne')

/-- Witness for C19: a close on socket 1 (stamped at 20, identity cached by
process 42) and an outbound open on socket 2, in both orders. -/
theorem distinct_sockets_commute_witness :
    (kprobe__tcp_set_state ⟨true⟩ ⟨⟨10240, [(1, 20)]⟩, ⟨10240, [(1, ⟨42, [115]⟩)]⟩⟩
        (Event.sample 1 TCP_CLOSE 5030)).2 =
      (kprobe__tcp_set_state ⟨true⟩
        (kprobe__tcp_set_state ⟨true⟩ ⟨⟨10240, [(1, 20)]⟩, ⟨10240, [(1, ⟨42, [115]⟩)]⟩⟩
          (Event.sample 2 TCP_SYN_SENT 4000)).1
        (Event.sample 1 TCP_CLOSE 5030)).2 :=
  (distinct_sockets_commute ⟨true⟩ ⟨⟨10240, [(1, 20)]⟩, ⟨10240, [(1, ⟨42, [115]⟩)]⟩⟩
    (Event.sample 1 TCP_CLOSE 5030) (Event.sample 2 TCP_SYN_SENT 4000)
    (by decide) (by decide) (by decide)).2.2.1

end Tcplife
